import Mathlib

/-!
Verification development for the WebDAV client of this repository
(src/src/webdav-client.ts) and the workflow node that calls it
(src/unnamed/part_001).  The TypeScript code is shallowly embedded:

* XML documents are represented after the fast-xml-parser step as a
  JSON-like tree `JVal` (the parser itself is a third-party library;
  everything the repository does with its output is modelled faithfully).
* JavaScript platform primitives used by the code (`decodeURIComponent`,
  `parseInt`, `path.basename`, `path.dirname`, `new URL`) are modelled as
  executable Lean functions; each model's doc comment states its scope.
* The HTTP transport (axios) is modelled by a `Server` oracle mapping a
  request to an outcome; every client operation returns the list of
  requests it transmitted together with its result, so properties about
  which requests were (not) issued are expressible.
-/

set_option maxHeartbeats 1000000
set_option maxRecDepth 8192

namespace WebDavModel

/-- JSON-like value tree modelling the output of the fast-xml-parser step in
src/webdav-client.ts (objects for elements, arrays for repeated siblings,
strings and numbers for text nodes). -/
inductive JVal where
  | str : String → JVal
  | num : Int → JVal
  | obj : List (String × JVal) → JVal
  | arr : List JVal → JVal

/-- JavaScript truthiness of a defined `JVal` (objects and arrays are always
truthy, a string is truthy iff nonempty, a number iff nonzero). -/
def jsTruthy : JVal → Bool
  | .str s => !s.isEmpty
  | .num n => n != 0
  | .obj _ => true
  | .arr _ => true

/-- Property lookup in an object's field list (first binding wins, as in a
JavaScript object literal, which cannot hold duplicate keys anyway). -/
def jlookup (k : String) : List (String × JVal) → Option JVal
  | [] => none
  | (k', v) :: rest => if k' = k then some v else jlookup k rest

/-- A single JavaScript property access `v[k]`: defined only on objects,
`undefined` (here `none`) on every other value. -/
def jget : JVal → String → Option JVal
  | .obj l, k => jlookup k l
  | _, _ => none

/-- Models the local helper `getField(obj, ...keys)` of
`normalizeWebDAVResponse` (src/webdav-client.ts line 196): return the first
key whose value is defined. -/
def getField (v : JVal) : List String → Option JVal
  | [] => none
  | k :: ks =>
    match jget v k with
    | some x => some x
    | none => getField v ks

/-- Models a JavaScript `a || b` where `a` may be undefined: the left value
if defined and truthy, otherwise the default. -/
def jsOrDefault (a : Option JVal) (d : JVal) : JVal :=
  match a with
  | some v => if jsTruthy v then v else d
  | none => d

/-- Models a chain `a || b || c` of possibly-undefined values as used on
src/webdav-client.ts lines 174 and 179: the first defined truthy value,
otherwise the last value of the chain (which may itself be undefined or
falsy). -/
def jsOrList : List (Option JVal) → Option JVal
  | [] => none
  | [x] => x
  | x :: rest =>
    match x with
    | some v => if jsTruthy v then some v else jsOrList rest
    | none => jsOrList rest

/-- Substring containment over character lists. -/
def hasSubstring : List Char → List Char → Bool
  | [], sub => sub.isEmpty
  | c :: t, sub => sub.isPrefixOf (c :: t) || hasSubstring t sub

/-- Models `String.prototype.includes` (substring containment). -/
def jsIncludes (s sub : String) : Bool :=
  hasSubstring s.toList sub.toList

/-- Models `String.prototype.startsWith`. -/
def jsStartsWith (s pre : String) : Bool :=
  pre.toList.isPrefixOf s.toList

mutual
/-- JavaScript string coercion of a `JVal`, as applied implicitly by
`decodeURIComponent` and `parseInt`.  Arrays join their elements with commas
and objects print as in V8. -/
def jsToString : JVal → String
  | .str s => s
  | .num n => toString n
  | .obj _ => "[object Object]"
  | .arr l => jsToStringList l

def jsToStringList : List JVal → String
  | [] => ""
  | [x] => jsToString x
  | x :: xs => jsToString x ++ "," ++ jsToStringList xs
end

/-- Value of a hexadecimal digit character (code points 48-57, 65-70 and
97-102). -/
def hexDigit (c : Char) : Option Nat :=
  let n := c.toNat
  if 48 ≤ n ∧ n ≤ 57 then some (n - 48)
  else if 65 ≤ n ∧ n ≤ 70 then some (n - 55)
  else if 97 ≤ n ∧ n ≤ 102 then some (n - 87)
  else none

/-- Decoding loop of `decodeURIComponent`: percent escapes are read as bytes
and reassembled as UTF-8 (1 to 4 byte forms); a malformed escape, a bad
continuation byte, or an invalid resulting code point is a `URIError`,
modelled as `none`.  Strict overlong-form checks of the platform function
are approximated by the code-point validity check. -/
def decodeChars : List Char → Option (List Char)
  | [] => some []
  | '%' :: h1 :: h2 :: rest =>
    match hexDigit h1, hexDigit h2 with
    | some a, some b =>
      let byte := 16 * a + b
      if byte < 128 then
        match decodeChars rest with
        | some tail => some (Char.ofNat byte :: tail)
        | none => none
      else if 0xc2 ≤ byte ∧ byte ≤ 0xdf then
        match rest with
        | '%' :: h3 :: h4 :: rest2 =>
          match hexDigit h3, hexDigit h4 with
          | some a2, some b2 =>
            let byte2 := 16 * a2 + b2
            let cp := (byte - 0xc0) * 64 + (byte2 - 0x80)
            if 0x80 ≤ byte2 ∧ byte2 ≤ 0xbf ∧ Nat.isValidChar cp then
              match decodeChars rest2 with
              | some tail => some (Char.ofNat cp :: tail)
              | none => none
            else none
          | _, _ => none
        | _ => none
      else if 0xe0 ≤ byte ∧ byte ≤ 0xef then
        match rest with
        | '%' :: h3 :: h4 :: '%' :: h5 :: h6 :: rest2 =>
          match hexDigit h3, hexDigit h4, hexDigit h5, hexDigit h6 with
          | some a2, some b2, some a3, some b3 =>
            let byte2 := 16 * a2 + b2
            let byte3 := 16 * a3 + b3
            let cp := (byte - 0xe0) * 4096 + (byte2 - 0x80) * 64 + (byte3 - 0x80)
            if 0x80 ≤ byte2 ∧ byte2 ≤ 0xbf ∧ 0x80 ≤ byte3 ∧ byte3 ≤ 0xbf ∧
                Nat.isValidChar cp then
              match decodeChars rest2 with
              | some tail => some (Char.ofNat cp :: tail)
              | none => none
            else none
          | _, _, _, _ => none
        | _ => none
      else if 0xf0 ≤ byte ∧ byte ≤ 0xf4 then
        match rest with
        | '%' :: h3 :: h4 :: '%' :: h5 :: h6 :: '%' :: h7 :: h8 :: rest2 =>
          match hexDigit h3, hexDigit h4, hexDigit h5, hexDigit h6,
              hexDigit h7, hexDigit h8 with
          | some a2, some b2, some a3, some b3, some a4, some b4 =>
            let byte2 := 16 * a2 + b2
            let byte3 := 16 * a3 + b3
            let byte4 := 16 * a4 + b4
            let cp := (byte - 0xf0) * 262144 + (byte2 - 0x80) * 4096 +
              (byte3 - 0x80) * 64 + (byte4 - 0x80)
            if 0x80 ≤ byte2 ∧ byte2 ≤ 0xbf ∧ 0x80 ≤ byte3 ∧ byte3 ≤ 0xbf ∧
                0x80 ≤ byte4 ∧ byte4 ≤ 0xbf ∧ Nat.isValidChar cp then
              match decodeChars rest2 with
              | some tail => some (Char.ofNat cp :: tail)
              | none => none
            else none
          | _, _, _, _, _, _ => none
        | _ => none
      else none
    | _, _ => none
  | '%' :: _ => none
  | c :: rest =>
    match decodeChars rest with
    | some tail => some (c :: tail)
    | none => none

/-- Models the platform `decodeURIComponent` (percent decoding); `none`
models a thrown `URIError`. -/
def decodeURIComponent (s : String) : Option String :=
  (decodeChars s.toList).map String.mk

/-- Models `parseInt(s, 10)`: skip leading whitespace, optional sign, then
the longest digit run; `none` models `NaN` (no digits found). -/
def jsParseInt (s : String) : Option Int :=
  let cs := s.toList.dropWhile fun c =>
    c = ' ' ∨ c = '\t' ∨ c = '\n' ∨ c = '\r'
  let signAndDigits : Int × List Char :=
    match cs with
    | '-' :: r => (-1, r)
    | '+' :: r => (1, r)
    | _ => (1, cs)
  let digits := signAndDigits.2.takeWhile Char.isDigit
  if digits.isEmpty then none
  else some (signAndDigits.1 * (digits.foldl (fun a c => a * 10 + (c.toNat - 48)) 0 : Nat))

/-- Models Node's `path.basename` for POSIX paths: drop trailing slashes,
then take the last segment. -/
def pathBasename (s : String) : String :=
  let r := s.toList.reverse.dropWhile (· = '/')
  String.mk ((r.takeWhile (· ≠ '/')).reverse)

/-- Models Node's `path.dirname` for POSIX paths. -/
def pathDirname (s : String) : String :=
  let cs := s.toList
  let hasRoot := cs.head? = some '/'
  let r := cs.reverse.dropWhile (· = '/')
  let r2 := (r.dropWhile (· ≠ '/')).dropWhile (· = '/')
  if r2.isEmpty then (if hasRoot then "/" else ".")
  else String.mk r2.reverse

/-- The three spellings tried for a `DAV:` element name, in the fixed
priority order of the source (lines 174, 179, 203 and onward of
src/webdav-client.ts): prefix `d:`, prefix `D:`, no prefix. -/
def dKeys (n : String) : List String :=
  ["d:" ++ n, "D:" ++ n, n]

/-- The callback of `propstatArray.find` on src/webdav-client.ts lines
208-211: `status && status.includes('200')`.  A truthy non-string status
would crash (`status.includes` is not a function); the crash is modelled as
an error, as it is caught by `parseWebDAVResponse` below. -/
def statusHas200 (ps : JVal) : Except String Bool :=
  match getField ps (dKeys "status") with
  | none => .ok false
  | some v =>
    if jsTruthy v then
      match v with
      | .str s => .ok (jsIncludes s "200")
      | _ => .error "status.includes is not a function"
    else .ok false

/-- `propstatArray.find(ps => ...)` where an array slot may be `undefined`
(`none`): testing an undefined slot crashes inside `getField`. -/
def findSuccess : List (Option JVal) → Except String (Option JVal)
  | [] => .ok none
  | none :: _ => .error "Cannot read properties of undefined"
  | some ps :: rest =>
    match statusHas200 ps with
    | .error e => .error e
    | .ok true => .ok (some ps)
    | .ok false => findSuccess rest

/-- The six recognized property fields after namespace normalization
(src/webdav-client.ts lines 219-224); raw values are kept as subtrees. -/
structure NormProp where
  getcontentlength : Option JVal
  getlastmodified : Option JVal
  getcontenttype : Option JVal
  getetag : Option JVal
  resourcetype : Option JVal
  displayname : Option JVal

/-- A normalized multistatus record as returned by
`normalizeWebDAVResponse`: the TypeScript value
`{ href, propstat: { prop, status } }` is flattened to its three
components (the normalizer always emits the single-object `propstat`
form). -/
structure WebDAVResponse where
  href : String
  prop : NormProp
  status : JVal

/-- Extraction of the six recognized property fields, each spelling
resolved independently (src/webdav-client.ts lines 219-224). -/
def extractProps (pv : JVal) : NormProp where
  getcontentlength := getField pv (dKeys "getcontentlength")
  getlastmodified := getField pv (dKeys "getlastmodified")
  getcontenttype := getField pv (dKeys "getcontenttype")
  getetag := getField pv (dKeys "getetag")
  resourcetype := getField pv (dKeys "resourcetype")
  displayname := getField pv (dKeys "displayname")

/-- Coercion of the propstat field to an array (src/webdav-client.ts line
207): `Array.isArray(propstat) ? propstat : [propstat]`.  A slot may hold
`none` when the field was undefined. -/
def toPropstatArray : Option JVal → List (Option JVal)
  | some (.arr xs) => xs.map some
  | some v => [some v]
  | none => [none]

/-- The propstat block selected for extraction (src/webdav-client.ts lines
208-211): `find(ps => status && status.includes('200')) ||
propstatArray[0]`. -/
def selectPropstat (propstatArray : List (Option JVal)) :
    Except String (Option JVal) :=
  match findSuccess propstatArray with
  | .error e => .error e
  | .ok found =>
    .ok (match found with
      | some v => if jsTruthy v then some v else propstatArray.headD none
      | none => propstatArray.headD none)

/-- Models `normalizeWebDAVResponse` (src/webdav-client.ts lines 195-229).
Errors model JavaScript exceptions escaping the method (they are caught by
`parseWebDAVResponse`). -/
def normalizeWebDAVResponse (response : JVal) : Except String WebDAVResponse :=
  let href := getField response (dKeys "href")
  let propstat := getField response (dKeys "propstat")
  let propstatArray := toPropstatArray propstat
  match selectPropstat propstatArray with
  | .error e => .error e
  | .ok none => .error "Cannot read properties of undefined"
  | .ok (some ps) =>
    let prop := jsOrDefault (getField ps (dKeys "prop")) (.obj [])
    match decodeURIComponent (jsToString (jsOrDefault href (.str ""))) with
    | none => .error "URI malformed"
    | some decodedHref =>
      .ok { href := decodedHref
          , prop := extractProps prop
          , status := jsOrDefault (getField ps (dKeys "status"))
              (.str "HTTP/1.1 200 OK") }

/-- The try-block of `parseWebDAVResponse` (src/webdav-client.ts lines
170-186), starting from the already-parsed XML tree: locate the
multistatus root under any recognized spelling, coerce the response field
to an array, normalize every record. -/
def parseMultistatus (parsed : JVal) : Except String (List WebDAVResponse) :=
  match jsOrList [jget parsed "d:multistatus", jget parsed "D:multistatus",
      jget parsed "multistatus"] with
  | none => .error "Неверный формат WebDAV ответа"
  | some m =>
    if jsTruthy m then
      match jsOrList [jget m "d:response", jget m "D:response",
          jget m "response"] with
      | some (.arr xs) => xs.mapM normalizeWebDAVResponse
      | some v =>
        match normalizeWebDAVResponse v with
        | .ok r => .ok [r]
        | .error e => .error e
      | none => .error "Cannot read properties of undefined"
    else .error "Неверный формат WebDAV ответа"

/-- Class of WebDAV errors of the source (src/webdav-client.ts lines
59-71): message plus optional HTTP status code, status text and body (the
raw body is not modelled). -/
structure WebDAVError where
  message : String
  statusCode : Option Nat
  statusText : Option String
deriving Repr, DecidableEq

/-- Models `parseWebDAVResponse` (src/webdav-client.ts lines 169-190):
the try-block above with its catch re-wrapping every exception as a
`WebDAVError` without status code. -/
def parseWebDAVResponse (parsed : JVal) : Except WebDAVError (List WebDAVResponse) :=
  match parseMultistatus parsed with
  | .ok rs => .ok rs
  | .error msg => .error ⟨"Ошибка парсинга XML: " ++ msg, none, none⟩

/-- The `FileInfo` output entity (src/webdav-client.ts lines 23-31).
`basename` and `lastmod` keep the dynamic JavaScript value (a fallback to
a raw property subtree is possible), `size` is `parseInt`'s result where
`none` models `NaN`, and `now` dependencies are made explicit by the
mapper below. -/
structure FileInfo where
  filename : String
  basename : JVal
  type : String
  size : Option Int
  lastmod : JVal
  mime : Option JVal
  etag : Option JVal

/-- Models `webdavResponseToFileInfo` (src/webdav-client.ts lines 234-253).
`now` stands for `new Date().toISOString()`.  The `Array.isArray` branch of
the source is unreachable here because the normalizer always emits the
single-object `propstat` form, so `prop` is the record's property map. -/
def webdavResponseToFileInfo (now : String) (response : WebDAVResponse) : FileInfo :=
  let prop := response.prop
  let isDirectory : Bool :=
    match prop.resourcetype with
    | none => false
    | some rt =>
      jsTruthy rt &&
        ((jget rt "collection").isSome || (jget rt "d:collection").isSome ||
          (jget rt "D:collection").isSome)
  { filename := response.href
  , basename :=
      let b := pathBasename response.href
      if b.isEmpty then jsOrDefault prop.displayname (.str "") else .str b
  , type := if isDirectory then "directory" else "file"
  , size := jsParseInt (jsToString (jsOrDefault prop.getcontentlength (.str "0")))
  , lastmod := jsOrDefault prop.getlastmodified (.str now)
  , mime := prop.getcontenttype
  , etag := prop.getetag }

/-- An HTTP request as issued through the axios instance: method, url
(resolved against the configured base URL by axios), the headers set
explicitly by the client, and the length of the request body (the body
content itself is opaque to every property modelled here). -/
structure HttpRequest where
  method : String
  url : String
  headers : List (String × String)
  bodyLen : Nat
deriving Repr, DecidableEq

/-- What the network does with a transmitted request: a reply with a
status line and (for PROPFIND) an XML body given as its parsed tree, or a
transport-level failure with no response. -/
inductive HttpOutcome where
  | reply (status : Nat) (statusText : String) (body : JVal)
  | netError

/-- The server/network oracle: stateless map from request to outcome. -/
def Server := HttpRequest → HttpOutcome

/-- Result of one axios call as observed by the client code: fulfilled
2xx response, rejected AxiosError with a response (non-2xx status, per
axios' default `validateStatus`), rejected without response (network
failure), or a local rejection before transmission (body over the
configured `maxBodyLength`). -/
inductive AxiosResult where
  | success (status : Nat) (body : JVal)
  | httpError (status : Nat) (statusText : String)
  | netError
  | localError

/-- One axios exchange under an effective `maxBodyLength` (`none` models
`Infinity`): an over-long body is rejected locally and the request is not
transmitted (it does not appear in the returned trace). -/
def runAxios (maxBody : Option Nat) (srv : Server) (req : HttpRequest) :
    List HttpRequest × AxiosResult :=
  if (match maxBody with | some m => decide (req.bodyLen > m) | none => false) then
    ([], .localError)
  else
    ([req], match srv req with
      | .reply st stext body =>
        if 200 ≤ st ∧ st < 300 then .success st body
        else .httpError st stext
      | .netError => .netError)

/-- The message chosen by `handleError`'s status-code switch
(src/webdav-client.ts lines 131-158); the default branch keeps the axios
message. -/
def statusSwitchMessage (st : Nat) (axiosMessage : String) : String :=
  if st = 401 then "Ошибка аутентификации. Проверьте учетные данные."
  else if st = 403 then "Доступ запрещен. Недостаточно прав."
  else if st = 404 then "Ресурс не найден."
  else if st = 405 then "Метод не поддерживается сервером."
  else if st = 409 then "Конфликт. Ресурс уже существует или заблокирован."
  else if st = 412 then "Предусловие не выполнено."
  else if st = 423 then "Ресурс заблокирован."
  else if st = 507 then "Недостаточно места на сервере."
  else axiosMessage

/-- Models `handleError` (src/webdav-client.ts lines 123-164) on the three
failure shapes of an axios call (the `success` case never reaches it and
maps to a bare contextual error). -/
def handleError (context : String) : AxiosResult → WebDAVError
  | .httpError st stext =>
    ⟨context ++ ": " ++
        statusSwitchMessage st ("Request failed with status code " ++ toString st),
      some st, some stext⟩
  | .netError => ⟨context ++ ": Network Error", none, none⟩
  | .localError =>
    ⟨context ++ ": Request body larger than maxBodyLength limit", none, none⟩
  | .success _ _ => ⟨context, none, none⟩

/-- Construction-time options (src/webdav-client.ts lines 10-18); only the
fields relevant to the verified claims are modelled (credentials and the
TLS agent do not influence any modelled observable). -/
structure WebDAVClientOptions where
  maxBodyLength : Option Nat := none
  maxContentLength : Option Nat := none

/-- The client's immutable configuration after the constructor
(src/webdav-client.ts lines 81-118). -/
structure WebDAVClient where
  baseURL : String
  maxBodyLength : Nat
  maxContentLength : Nat

/-- Models the constructor / `createClient`: `options.maxBodyLength ||
524288000` (a missing — or zero, as `||` tests truthiness — option falls
back to the 500MB default), same for `maxContentLength`. -/
def createClient (baseURL : String) (options : WebDAVClientOptions := {}) :
    WebDAVClient where
  baseURL := baseURL
  maxBodyLength :=
    match options.maxBodyLength with
    | some n => if n = 0 then 524288000 else n
    | none => 524288000
  maxContentLength :=
    match options.maxContentLength with
    | some n => if n = 0 then 524288000 else n
    | none => 524288000

/-- The HEAD request issued by `exists`. -/
def headRequest (filePath : String) : HttpRequest :=
  ⟨"HEAD", filePath, [], 0⟩

/-- Models `exists` (src/webdav-client.ts lines 258-270): HEAD, `true` on a
2xx status, `false` on every failure (404 and any other error alike).
Returns the transmitted requests together with the boolean. -/
def existsOp (c : WebDAVClient) (srv : Server) (filePath : String) :
    List HttpRequest × Bool :=
  let (tr, res) := runAxios (some c.maxBodyLength) srv (headRequest filePath)
  (tr, match res with
    | .success st _ => decide (200 ≤ st ∧ st < 300)
    | _ => false)

/-- The PUT request issued by `putFileContents` / `putFileStream`. -/
def putRequest (filePath : String) (dataLen : Nat) : HttpRequest :=
  ⟨"PUT", filePath, [("Content-Type", "application/octet-stream")], dataLen⟩

/-- Models `putFileContents` (src/webdav-client.ts lines 309-330): when
`overwrite` is not set, first `exists`; an existing target raises the
client-synthesized 409 Conflict before the PUT is transmitted. -/
def putFileContents (c : WebDAVClient) (srv : Server) (filePath : String)
    (dataLen : Nat) (overwrite : Bool) :
    List HttpRequest × Except WebDAVError Unit :=
  if !overwrite then
    let (t1, ex) := existsOp c srv filePath
    if ex then
      (t1, .error ⟨"Файл " ++ filePath ++ " уже существует", some 409, some "Conflict"⟩)
    else
      let (t2, res) := runAxios (some c.maxBodyLength) srv (putRequest filePath dataLen)
      (t1 ++ t2, match res with
        | .success _ _ => .ok ()
        | e => .error (handleError "Не удалось загрузить содержимое файла" e))
  else
    let (t2, res) := runAxios (some c.maxBodyLength) srv (putRequest filePath dataLen)
    (t2, match res with
      | .success _ _ => .ok ()
      | e => .error (handleError "Не удалось загрузить содержимое файла" e))

/-- Models `putFileStream` (src/webdav-client.ts lines 335-358): same
existence gate, but the per-request config overrides `maxBodyLength` and
`maxContentLength` to `Infinity` (modelled by passing `none` to
`runAxios`), so no local size limit applies. -/
def putFileStream (c : WebDAVClient) (srv : Server) (filePath : String)
    (streamLen : Nat) (overwrite : Bool) :
    List HttpRequest × Except WebDAVError Unit :=
  if !overwrite then
    let (t1, ex) := existsOp c srv filePath
    if ex then
      (t1, .error ⟨"Файл " ++ filePath ++ " уже существует", some 409, some "Conflict"⟩)
    else
      let (t2, res) := runAxios none srv (putRequest filePath streamLen)
      (t1 ++ t2, match res with
        | .success _ _ => .ok ()
        | e => .error (handleError "Не удалось загрузить поток файла" e))
  else
    let (t2, res) := runAxios none srv (putRequest filePath streamLen)
    (t2, match res with
      | .success _ _ => .ok ()
      | e => .error (handleError "Не удалось загрузить поток файла" e))

/-- An http(s) base URL split into scheme, host and absolute path. -/
structure ParsedBase where
  scheme : String
  host : String
  path : String
deriving Repr, DecidableEq

/-- Split a character list on the path separator. -/
def splitOnSlash : List Char → List (List Char)
  | [] => [[]]
  | '/' :: t => [] :: splitOnSlash t
  | c :: t =>
    match splitOnSlash t with
    | [] => [[c]]
    | seg :: rest => (c :: seg) :: rest

/-- Rejoin path segments with separators. -/
def joinSlash : List (List Char) → List Char
  | [] => []
  | [x] => x
  | x :: xs => x ++ '/' :: joinSlash xs

/-- Split `scheme://rest` into host and absolute path. -/
def parseHostPath (scheme rest : String) : Option ParsedBase :=
  match splitOnSlash rest.toList with
  | [] => none
  | host :: segs =>
    if host.isEmpty then none
    else some ⟨scheme, String.mk host, String.mk ('/' :: joinSlash segs)⟩

/-- Parse an absolute http(s) URL (no query or fragment) into its parts;
`none` when the scheme is missing or the host is empty. -/
def parseHttpBase (base : String) : Option ParsedBase :=
  if jsStartsWith base "https://" then parseHostPath "https" (base.drop 8)
  else if jsStartsWith base "http://" then parseHostPath "http" (base.drop 7)
  else none

/-- The base path truncated after its last separator (the directory the
WHATWG resolver appends relative references to). -/
def dirPart (path : String) : String :=
  String.mk (path.toList.reverse.dropWhile (· ≠ '/')).reverse

/-- A character allowed after the first one in a URL scheme (WHATWG:
ASCII alphanumeric, `+`, `-`, `.`). -/
def isSchemeChar (c : Char) : Bool :=
  c.isAlphanum || c = '+' || c = '-' || c = '.'

/-- Whether a reference string carries a URL scheme: an ASCII letter
followed by scheme characters up to a colon.  Such a reference is an
absolute URL for the WHATWG parser and resolution ignores the base. -/
def hasScheme (p : String) : Bool :=
  match p.toList with
  | [] => false
  | c :: rest =>
    c.isAlpha &&
      (match rest.dropWhile isSchemeChar with
       | ':' :: _ => true
       | _ => false)

/-- Models `new URL(p, base).toString()` for an http(s) `base` without
query or fragment: any scheme-bearing reference is absolute — the base is
ignored and the input passes through (exact for non-special schemes such
as `report:`; the extra canonicalization the platform applies to the
special schemes ftp/file/ws/wss/http(s), e.g. inserting missing authority
slashes, is not modelled) — protocol-relative references keep the scheme,
absolute paths replace the base path, and relative references are appended
to the base directory.  Dot-segment and percent-encoding canonicalization
is not modelled; `none` models the constructor throwing on an unusable
base. -/
def newURL (p base : String) : Option String :=
  match parseHttpBase base with
  | none => none
  | some b =>
    if jsStartsWith p "http://" || jsStartsWith p "https://" then some p
    else if hasScheme p then some p
    else
      match p.toList with
      | '/' :: '/' :: _ => some (b.scheme ++ ":" ++ p)
      | '/' :: _ => some (b.scheme ++ "://" ++ b.host ++ p)
      | [] => some (b.scheme ++ "://" ++ b.host ++ b.path)
      | _ => some (b.scheme ++ "://" ++ b.host ++ dirPart b.path ++ p)

/-- Models `createAbsoluteUrl` (src/webdav-client.ts lines 542-553):
already-absolute URLs pass through; otherwise resolve against the base
URL, falling back to plain concatenation when the URL constructor
throws. -/
def createAbsoluteUrl (c : WebDAVClient) (path : String) : String :=
  if jsStartsWith path "http://" || jsStartsWith path "https://" then path
  else
    match newURL path c.baseURL with
    | some u => u
    | none =>
      (if c.baseURL.endsWith "/" then c.baseURL.dropRight 1 else c.baseURL) ++
        "/" ++ (if jsStartsWith path "/" then path.drop 1 else path)

/-- The headers of a MOVE/COPY request (src/webdav-client.ts lines
390-397 and 414-421): `Destination` always, `Overwrite` only when the
option was given. -/
def moveHeaders (c : WebDAVClient) (destination : String)
    (overwrite : Option Bool) : List (String × String) :=
  [("Destination", createAbsoluteUrl c destination)] ++
    (match overwrite with
     | some b => [("Overwrite", if b then "T" else "F")]
     | none => [])

/-- Models `moveFile` (src/webdav-client.ts lines 388-407). -/
def moveFile (c : WebDAVClient) (srv : Server) (source destination : String)
    (overwrite : Option Bool) : List HttpRequest × Except WebDAVError Unit :=
  let (tr, res) := runAxios (some c.maxBodyLength) srv
    ⟨"MOVE", source, moveHeaders c destination overwrite, 0⟩
  (tr, match res with
    | .success _ _ => .ok ()
    | e => .error (handleError "Не удалось переместить файл" e))

/-- Models `copyFile` (src/webdav-client.ts lines 412-431). -/
def copyFile (c : WebDAVClient) (srv : Server) (source destination : String)
    (overwrite : Option Bool) : List HttpRequest × Except WebDAVError Unit :=
  let (tr, res) := runAxios (some c.maxBodyLength) srv
    ⟨"COPY", source, moveHeaders c destination overwrite, 0⟩
  (tr, match res with
    | .success _ _ => .ok ()
    | e => .error (handleError "Не удалось скопировать файл" e))

/-- The fixed PROPFIND body sent by `stat` and `getDirectoryContents`
(src/webdav-client.ts lines 445-455 and 494-504), requesting the six
recognized properties.  Only its length is observable in this model. -/
def propfindXML : String :=
  "<?xml version=\"1.0\" encoding=\"utf-8\" ?><d:propfind xmlns:d=\"DAV:\"><d:prop><d:resourcetype/><d:getcontentlength/><d:getlastmodified/><d:getcontenttype/><d:getetag/><d:displayname/></d:prop></d:propfind>"

/-- The PROPFIND request with a given Depth header. -/
def propfindRequest (url depth : String) : HttpRequest :=
  ⟨"PROPFIND", url,
    [("Depth", depth), ("Content-Type", "application/xml; charset=utf-8")],
    propfindXML.length⟩

/-- Models `stat` (src/webdav-client.ts lines 436-474): PROPFIND with
Depth 0, parse, fail with the (404-carrying) resource-information error
when zero records were parsed, else map the first record. -/
def stat (c : WebDAVClient) (srv : Server) (filePath : String) (now : String) :
    List HttpRequest × Except WebDAVError FileInfo :=
  let (tr, res) := runAxios (some c.maxBodyLength) srv (propfindRequest filePath "0")
  match res with
  | .success _ body =>
    match parseWebDAVResponse body with
    | .error e => (tr, .error e)
    | .ok [] =>
      (tr, .error ⟨"Не удалось получить информацию о ресурсе", some 404, some "Not Found"⟩)
    | .ok (r :: _) => (tr, .ok (webdavResponseToFileInfo now r))
  | e => (tr, .error (handleError "Не удалось получить информацию о файле" e))

/-- The queried path with a trailing separator appended when missing
(src/webdav-client.ts lines 482-485). -/
def normalizeDirPath (dirPath : String) : String :=
  if dirPath.endsWith "/" then dirPath else dirPath ++ "/"

/-- The self-entry test of `getDirectoryContents` (src/webdav-client.ts
lines 519-522): the record's href compared against the normalized path,
the original path, the normalized path without its trailing separator,
and the href with a separator appended. -/
def isSelfHref (dirPath normalizedPath href : String) : Prop :=
  href = normalizedPath ∨ href = dirPath ∨
    href = normalizedPath.dropRight 1 ∨ href ++ "/" = normalizedPath

instance (dirPath normalizedPath href : String) :
    Decidable (isSelfHref dirPath normalizedPath href) := by
  unfold isSelfHref; infer_instance

/-- The record loop of `getDirectoryContents` (src/webdav-client.ts lines
512-528): skip the record denoting the queried directory itself, map
every other record to `FileInfo`. -/
def filterDirectoryEntries (dirPath normalizedPath now : String) :
    List WebDAVResponse → List FileInfo
  | [] => []
  | r :: rest =>
    if isSelfHref dirPath normalizedPath r.href then
      filterDirectoryEntries dirPath normalizedPath now rest
    else
      webdavResponseToFileInfo now r ::
        filterDirectoryEntries dirPath normalizedPath now rest

/-- Models `getDirectoryContents` (src/webdav-client.ts lines 479-537):
normalize the path, PROPFIND with Depth 1 or infinity, parse, filter out
the directory's own record, map the rest. -/
def getDirectoryContents (c : WebDAVClient) (srv : Server) (dirPath : String)
    (deep : Bool) (now : String) :
    List HttpRequest × Except WebDAVError (List FileInfo) :=
  let normalizedPath := normalizeDirPath dirPath
  let (tr, res) := runAxios (some c.maxBodyLength) srv
    (propfindRequest normalizedPath (if deep then "infinity" else "1"))
  match res with
  | .success _ body =>
    match parseWebDAVResponse body with
    | .error e => (tr, .error e)
    | .ok rs => (tr, .ok (filterDirectoryEntries dirPath normalizedPath now rs))
  | e => (tr, .error (handleError "Не удалось получить содержимое директории" e))

/-- Models `createDirectory` (src/webdav-client.ts lines 363-372): MKCOL. -/
def createDirectory (c : WebDAVClient) (srv : Server) (dirPath : String) :
    List HttpRequest × Except WebDAVError Unit :=
  let (tr, res) := runAxios (some c.maxBodyLength) srv ⟨"MKCOL", dirPath, [], 0⟩
  (tr, match res with
    | .success _ _ => .ok ()
    | e => .error (handleError "Не удалось создать директорию" e))

/-- Errors escaping a node operation branch (src/unnamed/part_001): a
`NodeOperationError` thrown by the branch itself, or a `WebDAVError`
propagated from the client. -/
inductive NodeError where
  | opError (message : String)
  | davError (e : WebDAVError)
deriving Repr, DecidableEq

/-- The loop body of the node's `createParentDirectories` helper
(src/unnamed/part_001 lines 497-513): for each successively deeper prefix,
`exists` then `createDirectory` when missing; a client error aborts the
loop. -/
def createParentsLoop (c : WebDAVClient) (srv : Server) (currentPath : String) :
    List String → List HttpRequest × Except WebDAVError Unit
  | [] => ([], .ok ())
  | part :: parts =>
    let nextPath := currentPath ++ "/" ++ part
    let (t1, ex) := existsOp c srv nextPath
    if ex then
      let (t2, res) := createParentsLoop c srv nextPath parts
      (t1 ++ t2, res)
    else
      let (t2, res) := createDirectory c srv nextPath
      match res with
      | .error e => (t1 ++ t2, .error e)
      | .ok () =>
        let (t3, res2) := createParentsLoop c srv nextPath parts
        (t1 ++ t2 ++ t3, res2)

/-- Models the node's `createParentDirectories` helper: split the path on
separators and create each missing ancestor, strictly one level at a
time. -/
def createParentDirectories (c : WebDAVClient) (srv : Server) (dirPath : String) :
    List HttpRequest × Except WebDAVError Unit :=
  createParentsLoop c srv "" ((dirPath.splitOn "/").filter (fun p => !p.isEmpty))

/-- Models the node's MOVE branch (src/unnamed/part_001 lines 682-732):
check the source exists, check the target (conflict when it exists and
overwrite is off), optionally create the target's parents, issue the
client MOVE, then `stat` the target (whose own failure is swallowed by a
fallback). -/
def nodeMoveBranch (c : WebDAVClient) (srv : Server)
    (filePath targetPath : String) (overwrite createParentFolders : Bool)
    (now : String) : List HttpRequest × Except NodeError Unit :=
  let (t1, sourceExists) := existsOp c srv filePath
  if !sourceExists then
    (t1, .error (.opError ("Исходный файл " ++ filePath ++ " не существует на сервере")))
  else
    let (t2, targetExists) := existsOp c srv targetPath
    if targetExists && !overwrite then
      (t1 ++ t2, .error (.opError ("Целевой файл " ++ targetPath ++
        " уже существует. Установите флаг \"Перезаписать\" для перезаписи.")))
    else
      let (t3, parentsRes) :=
        if createParentFolders then
          let dirPath := pathDirname targetPath
          if dirPath ≠ "/" ∧ dirPath ≠ "." then
            createParentDirectories c srv dirPath
          else ([], .ok ())
        else ([], .ok ())
      match parentsRes with
      | .error e => (t1 ++ t2 ++ t3, .error (.davError e))
      | .ok () =>
        let (t4, moveRes) := moveFile c srv filePath targetPath (some overwrite)
        match moveRes with
        | .error e => (t1 ++ t2 ++ t3 ++ t4, .error (.davError e))
        | .ok () =>
          let (t5, _) := stat c srv targetPath now
          (t1 ++ t2 ++ t3 ++ t4 ++ t5, .ok ())

/-- One of the three recognized spellings of a `DAV:` element name. -/
inductive Pfx where
  | d
  | D
  | bare
deriving Repr, DecidableEq

/-- Apply a spelling to an element name. -/
def pfx : Pfx → String → String
  | .d, n => "d:" ++ n
  | .D, n => "D:" ++ n
  | .bare, n => n

/-- The namespace-independent content of one multistatus response element:
href, status line, the optional text properties, and the resource type
(`none` absent, `some false` an empty `resourcetype`, `some true` a
`resourcetype` carrying a `collection` marker). -/
structure RespSkel where
  href : String
  status : String
  contentlength : Option String
  lastmodified : Option String
  contenttype : Option String
  etag : Option String
  isCollection : Option Bool
  displayname : Option String

/-- An independent spelling choice for every element of one response:
href, propstat, prop and status elements, the six property fields, and
the collection marker inside resourcetype. -/
structure RespPfx where
  phref : Pfx
  ppropstat : Pfx
  pprop : Pfx
  pstatus : Pfx
  pclen : Pfx
  plmod : Pfx
  pctype : Pfx
  petag : Pfx
  prtype : Pfx
  pcoll : Pfx
  pdname : Pfx

/-- An optional object entry under a chosen spelling. -/
def optE (q : Pfx) (n : String) : Option JVal → List (String × JVal)
  | none => []
  | some v => [(pfx q n, v)]

/-- The parsed value of the resourcetype property, when present. -/
def rtypeVal (q : Pfx) : Option Bool → Option JVal
  | none => none
  | some false => some (.str "")
  | some true => some (.obj [(pfx q "collection", .str "")])

/-- The prop element of a built response. -/
def mkProp (pf : RespPfx) (sk : RespSkel) : JVal :=
  .obj (optE pf.pclen "getcontentlength" (sk.contentlength.map .str) ++
    optE pf.plmod "getlastmodified" (sk.lastmodified.map .str) ++
    optE pf.pctype "getcontenttype" (sk.contenttype.map .str) ++
    optE pf.petag "getetag" (sk.etag.map .str) ++
    optE pf.prtype "resourcetype" (rtypeVal pf.pcoll sk.isCollection) ++
    optE pf.pdname "displayname" (sk.displayname.map .str))

/-- The propstat element of a built response. -/
def mkPropstat (pf : RespPfx) (sk : RespSkel) : JVal :=
  .obj [(pfx pf.pprop "prop", mkProp pf sk),
    (pfx pf.pstatus "status", .str sk.status)]

/-- A full response element under the given spelling choices. -/
def mkResp (pf : RespPfx) (sk : RespSkel) : JVal :=
  .obj [(pfx pf.phref "href", .str sk.href),
    (pfx pf.ppropstat "propstat", mkPropstat pf sk)]

/-- A full parsed multistatus document: root and response-list keys under
their own spellings, each response under its own independent choices. -/
def mkMultistatus (pr pq : Pfx) (rs : List (RespPfx × RespSkel)) : JVal :=
  .obj [(pfx pr "multistatus",
    .obj [(pfx pq "response", .arr (rs.map fun x => mkResp x.1 x.2))])]

/-- The normalized record a built response must map to: independent of
every spelling choice except the collection marker's, which normalization
leaves inside the raw resourcetype subtree. -/
def normRecord (qcoll : Pfx) (sk : RespSkel) : WebDAVResponse where
  href := (decodeURIComponent sk.href).getD ""
  prop :=
    { getcontentlength := sk.contentlength.map .str
    , getlastmodified := sk.lastmodified.map .str
    , getcontenttype := sk.contenttype.map .str
    , getetag := sk.etag.map .str
    , resourcetype := rtypeVal qcoll sk.isCollection
    , displayname := sk.displayname.map .str }
  status := jsOrDefault (some (.str sk.status)) (.str "HTTP/1.1 200 OK")

/-- The `FileInfo` a built response must map to: the image of the
bare-spelling normalized record, hence independent of every spelling
choice. -/
def canonFileInfo (now : String) (sk : RespSkel) : FileInfo :=
  webdavResponseToFileInfo now (normRecord .bare sk)

lemma jlookup_append (k : String) (l₁ l₂ : List (String × JVal)) :
    jlookup k (l₁ ++ l₂) =
      match jlookup k l₁ with
      | some v => some v
      | none => jlookup k l₂ := by
  induction l₁ with
  | nil => simp [jlookup]
  | cons hd tl ih =>
    obtain ⟨k', v⟩ := hd
    by_cases h : k' = k <;> simp [jlookup, h, ih]

lemma jlookup_optE (k n : String) (q : Pfx) (v : Option JVal) :
    jlookup k (optE q n v) =
      if pfx q n = k then v else none := by
  cases v with
  | none => simp [optE, jlookup]
  | some x => simp [optE, jlookup]

lemma jlookup_optE_ne (k n : String) (q : Pfx) (v : Option JVal)
    (h1 : "d:" ++ n ≠ k) (h2 : "D:" ++ n ≠ k) (h3 : n ≠ k) :
    jlookup k (optE q n v) = none := by
  cases q <;> simp [jlookup_optE, pfx, h1, h2, h3]

lemma pfx_eq_iff_false (q : Pfx) (n k : String) (h1 : ¬("d:" ++ n = k))
    (h2 : ¬("D:" ++ n = k)) (h3 : ¬(n = k)) : (pfx q n = k) ↔ False := by
  cases q <;> simp [pfx, h1, h2, h3]

lemma getField_mkProp_clen (pf : RespPfx) (sk : RespSkel) :
    getField (mkProp pf sk) (dKeys "getcontentlength") =
      sk.contentlength.map .str := by
  obtain ⟨p1, p2, p3, p4, p5, p6, p7, p8, p9, p10, p11⟩ := pf
  cases p5 <;> cases hsk : sk.contentlength <;>
    simp +decide [mkProp, getField, jget, dKeys, jlookup_append, jlookup_optE,
      pfx_eq_iff_false, hsk]

lemma getField_mkProp_lmod (pf : RespPfx) (sk : RespSkel) :
    getField (mkProp pf sk) (dKeys "getlastmodified") =
      sk.lastmodified.map .str := by
  obtain ⟨p1, p2, p3, p4, p5, p6, p7, p8, p9, p10, p11⟩ := pf
  cases p6 <;> cases hsk : sk.lastmodified <;>
    simp +decide [mkProp, getField, jget, dKeys, jlookup_append, jlookup_optE,
      pfx_eq_iff_false, hsk]

lemma getField_mkProp_ctype (pf : RespPfx) (sk : RespSkel) :
    getField (mkProp pf sk) (dKeys "getcontenttype") =
      sk.contenttype.map .str := by
  obtain ⟨p1, p2, p3, p4, p5, p6, p7, p8, p9, p10, p11⟩ := pf
  cases p7 <;> cases hsk : sk.contenttype <;>
    simp +decide [mkProp, getField, jget, dKeys, jlookup_append, jlookup_optE,
      pfx_eq_iff_false, hsk]

lemma getField_mkProp_etag (pf : RespPfx) (sk : RespSkel) :
    getField (mkProp pf sk) (dKeys "getetag") = sk.etag.map .str := by
  obtain ⟨p1, p2, p3, p4, p5, p6, p7, p8, p9, p10, p11⟩ := pf
  cases p8 <;> cases hsk : sk.etag <;>
    simp +decide [mkProp, getField, jget, dKeys, jlookup_append, jlookup_optE,
      pfx_eq_iff_false, hsk]

lemma getField_mkProp_rtype (pf : RespPfx) (sk : RespSkel) :
    getField (mkProp pf sk) (dKeys "resourcetype") =
      rtypeVal pf.pcoll sk.isCollection := by
  obtain ⟨p1, p2, p3, p4, p5, p6, p7, p8, p9, p10, p11⟩ := pf
  cases p9 <;> rcases hsk : sk.isCollection with _ | b <;> (try cases b) <;>
    simp +decide [mkProp, getField, jget, dKeys, jlookup_append, jlookup_optE,
      pfx_eq_iff_false, hsk, rtypeVal]

lemma getField_mkProp_dname (pf : RespPfx) (sk : RespSkel) :
    getField (mkProp pf sk) (dKeys "displayname") =
      sk.displayname.map .str := by
  obtain ⟨p1, p2, p3, p4, p5, p6, p7, p8, p9, p10, p11⟩ := pf
  cases p11 <;> cases hsk : sk.displayname <;>
    simp +decide [mkProp, getField, jget, dKeys, jlookup_append, jlookup_optE,
      pfx_eq_iff_false, hsk]

lemma getField_mkResp_href (pf : RespPfx) (sk : RespSkel) :
    getField (mkResp pf sk) (dKeys "href") = some (.str sk.href) := by
  obtain ⟨p1, p2, p3, p4, p5, p6, p7, p8, p9, p10, p11⟩ := pf
  cases p1 <;> cases p2 <;> rfl

lemma getField_mkResp_propstat (pf : RespPfx) (sk : RespSkel) :
    getField (mkResp pf sk) (dKeys "propstat") = some (mkPropstat pf sk) := by
  obtain ⟨p1, p2, p3, p4, p5, p6, p7, p8, p9, p10, p11⟩ := pf
  cases p1 <;> cases p2 <;> rfl

lemma getField_mkPropstat_prop (pf : RespPfx) (sk : RespSkel) :
    getField (mkPropstat pf sk) (dKeys "prop") = some (mkProp pf sk) := by
  obtain ⟨p1, p2, p3, p4, p5, p6, p7, p8, p9, p10, p11⟩ := pf
  cases p3 <;> cases p4 <;> rfl

lemma getField_mkPropstat_status (pf : RespPfx) (sk : RespSkel) :
    getField (mkPropstat pf sk) (dKeys "status") = some (.str sk.status) := by
  obtain ⟨p1, p2, p3, p4, p5, p6, p7, p8, p9, p10, p11⟩ := pf
  cases p3 <;> cases p4 <;> rfl

lemma jsTruthy_mkPropstat (pf : RespPfx) (sk : RespSkel) :
    jsTruthy (mkPropstat pf sk) = true := rfl

lemma jsTruthy_mkProp (pf : RespPfx) (sk : RespSkel) :
    jsTruthy (mkProp pf sk) = true := rfl

lemma statusHas200_mkPropstat (pf : RespPfx) (sk : RespSkel) :
    statusHas200 (mkPropstat pf sk) =
      .ok (if jsTruthy (.str sk.status) then jsIncludes sk.status "200"
        else false) := by
  unfold statusHas200
  rw [getField_mkPropstat_status]
  by_cases h : jsTruthy (.str sk.status) <;> simp [h]

lemma selectPropstat_single (pf : RespPfx) (sk : RespSkel) :
    selectPropstat [some (mkPropstat pf sk)] = .ok (some (mkPropstat pf sk)) := by
  unfold selectPropstat findSuccess
  rw [statusHas200_mkPropstat]
  by_cases h : jsTruthy (.str sk.status)
  · by_cases h2 : jsIncludes sk.status "200" <;>
      simp [h, h2, findSuccess, jsTruthy_mkPropstat]
  · simp [h, findSuccess, jsTruthy_mkPropstat]

lemma isEmpty_eq_empty (s : String) (h : s.isEmpty) : s = "" := by
  cases s with
  | mk data =>
    cases data with
    | nil => rfl
    | cons c cs =>
      exfalso
      simp [String.isEmpty, String.endPos, String.utf8ByteSize,
        String.Pos.ext_iff] at h
      have := Char.utf8Size_pos c
      omega

lemma jsOrDefault_str_empty (s : String) :
    jsOrDefault (some (.str s)) (.str "") = .str s := by
  by_cases h : s.isEmpty
  · simp [jsOrDefault, jsTruthy, h]
    exact (isEmpty_eq_empty s h).symm
  · simp [jsOrDefault, jsTruthy, h]

lemma extractProps_mkProp (pf : RespPfx) (sk : RespSkel) :
    extractProps (mkProp pf sk) = (normRecord pf.pcoll sk).prop := by
  simp [extractProps, normRecord, getField_mkProp_clen, getField_mkProp_lmod,
    getField_mkProp_ctype, getField_mkProp_etag, getField_mkProp_rtype,
    getField_mkProp_dname]

/-- Normalization of one built response element yields the record
determined by the skeleton alone (up to the collection marker's spelling,
which stays inside the raw resourcetype subtree), whatever the spellings
are. -/
lemma normalize_mkResp (pf : RespPfx) (sk : RespSkel)
    (h : (decodeURIComponent sk.href).isSome = true) :
    normalizeWebDAVResponse (mkResp pf sk) = .ok (normRecord pf.pcoll sk) := by
  obtain ⟨hc, hhc⟩ : ∃ c, decodeURIComponent sk.href = some c :=
    Option.isSome_iff_exists.mp h
  simp only [normalizeWebDAVResponse]
  rw [getField_mkResp_href, getField_mkResp_propstat]
  rw [show toPropstatArray (some (mkPropstat pf sk)) = [some (mkPropstat pf sk)]
    from rfl]
  rw [selectPropstat_single]
  dsimp only
  rw [getField_mkPropstat_prop, getField_mkPropstat_status]
  rw [show jsOrDefault (some (mkProp pf sk)) (.obj []) = mkProp pf sk from by
    simp [jsOrDefault, jsTruthy_mkProp]]
  rw [jsOrDefault_str_empty]
  rw [show jsToString (.str sk.href) = sk.href from rfl]
  rw [hhc]
  simp [normRecord, extractProps_mkProp, hhc]


lemma mapM_normalize_mkResp (rs : List (RespPfx × RespSkel))
    (h : ∀ x ∈ rs, (decodeURIComponent x.2.href).isSome = true)
    (acc : List WebDAVResponse) :
    List.mapM.loop normalizeWebDAVResponse (rs.map fun x => mkResp x.1 x.2) acc
      = .ok (acc.reverse ++ rs.map fun x => normRecord x.1.pcoll x.2) := by
  induction rs generalizing acc with
  | nil => simp [List.mapM.loop]; rfl
  | cons hd tl ih =>
    simp only [List.map_cons, List.mapM.loop]
    rw [normalize_mkResp hd.1 hd.2 (h hd (by simp))]
    show List.mapM.loop normalizeWebDAVResponse (tl.map fun x => mkResp x.1 x.2)
      (normRecord hd.1.pcoll hd.2 :: acc) = _
    rw [ih (fun x hx => h x (List.mem_cons_of_mem hd hx))]
    simp

/-- Mapping a normalized built record to `FileInfo` erases the one
remaining spelling dependence (the collection marker inside the raw
resourcetype subtree). -/
lemma fileinfo_normRecord (now : String) (q : Pfx) (sk : RespSkel) :
    webdavResponseToFileInfo now (normRecord q sk) = canonFileInfo now sk := by
  cases q <;> rcases hsk : sk.isCollection with _ | b <;> (try cases b) <;>
    simp +decide [webdavResponseToFileInfo, canonFileInfo, normRecord, rtypeVal,
      hsk, jget, jlookup, pfx, jsTruthy]


/-- Parsing a built multistatus document succeeds and produces the
spelling-free records (up to the collection marker's spelling), whatever
the root and response spellings are. -/
lemma parse_mkMultistatus (pr pq : Pfx) (rs : List (RespPfx × RespSkel))
    (hdec : ∀ x ∈ rs, (decodeURIComponent x.2.href).isSome = true) :
    parseWebDAVResponse (mkMultistatus pr pq rs)
      = .ok (rs.map fun x => normRecord x.1.pcoll x.2) := by
  cases pr <;> cases pq <;>
    simp +decide [mkMultistatus, parseWebDAVResponse, parseMultistatus,
      pfx, jget, jlookup, jsOrList, jsTruthy,
      mapM_normalize_mkResp rs hdec]

/-- C1: for every multistatus document built from per-element spelling
choices (root, response list, and every response element and property
field independently prefixed `d:`, `D:`, or unprefixed), parsing succeeds
whenever every href percent-decodes, and the resulting `FileInfo` records
are determined by the spelling-free skeletons alone — hence identical
across all spelling choices. -/
theorem c1_namespace_prefix_insensitive (now : String) (pr pq : Pfx)
    (rs : List (RespPfx × RespSkel))
    (hdec : ∀ x ∈ rs, (decodeURIComponent x.2.href).isSome = true) :
    (parseWebDAVResponse (mkMultistatus pr pq rs)).map
        (List.map (webdavResponseToFileInfo now))
      = .ok (rs.map fun x => canonFileInfo now x.2) := by
  rw [parse_mkMultistatus pr pq rs hdec]
  simp only [Except.map, List.map_map]
  rw [List.map_congr_left fun x _ => fileinfo_normRecord now x.1.pcoll x.2]


/-- Skeleton shared by the three responses of the C1 witness document. -/
def skWitness : RespSkel :=
  ⟨"/docs/report.pdf", "HTTP/1.1 200 OK", some "10240",
    some "Mon, 01 Jan 2024 00:00:00 GMT", some "application/pdf",
    some "etag1", some false, some "report.pdf"⟩

/-- Uniform spelling choices: everything `d:`. -/
def pfAlld : RespPfx := ⟨.d, .d, .d, .d, .d, .d, .d, .d, .d, .d, .d⟩

/-- Uniform spelling choices: everything `D:`. -/
def pfAllD : RespPfx := ⟨.D, .D, .D, .D, .D, .D, .D, .D, .D, .D, .D⟩

/-- Uniform spelling choices: everything unprefixed. -/
def pfAllBare : RespPfx :=
  ⟨.bare, .bare, .bare, .bare, .bare, .bare, .bare, .bare, .bare, .bare, .bare⟩

theorem c1_witness :
    (parseWebDAVResponse (mkMultistatus .d .D
        [(pfAlld, skWitness), (pfAllD, skWitness), (pfAllBare, skWitness)])).map
        (List.map (webdavResponseToFileInfo "2024-01-01T00:00:00.000Z"))
      = .ok [canonFileInfo "2024-01-01T00:00:00.000Z" skWitness,
          canonFileInfo "2024-01-01T00:00:00.000Z" skWitness,
          canonFileInfo "2024-01-01T00:00:00.000Z" skWitness] :=
  c1_namespace_prefix_insensitive "2024-01-01T00:00:00.000Z" .d .D
    [(pfAlld, skWitness), (pfAllD, skWitness), (pfAllBare, skWitness)]
    (by decide)


lemma existsOp_eq (c : WebDAVClient) (srv : Server) (p : String) :
    existsOp c srv p = ([headRequest p],
      match srv (headRequest p) with
      | .reply st _ _ => decide (200 ≤ st ∧ st < 300)
      | .netError => false) := by
  unfold existsOp runAxios
  cases h : srv (headRequest p) with
  | reply st stext body =>
    by_cases h2 : 200 ≤ st ∧ st < 300 <;>
      simp [headRequest, h, h2, Nat.not_lt_zero]
  | netError => simp [headRequest, h, Nat.not_lt_zero]

/-- C2: `exists` issues exactly one request, a HEAD; it evaluates to true
exactly when the server's reply status is 2xx, and to false in every other
case — a 404 reply, any other non-2xx reply, or a response-less failure
(network or TLS error) — without any error escaping (the result is a total
boolean). -/
theorem c2_exists_head_2xx (c : WebDAVClient) (srv : Server) (p : String) :
    (headRequest p).method = "HEAD" ∧
    (existsOp c srv p).1 = [headRequest p] ∧
    (existsOp c srv p).2 =
      (match srv (headRequest p) with
       | .reply st _ _ => decide (200 ≤ st ∧ st < 300)
       | .netError => false) := by
  refine ⟨rfl, ?_, ?_⟩ <;> rw [existsOp_eq]

/-- C3: with `overwrite` false and an existing target (`exists` returns
true), both `putFileContents` and `putFileStream` stop after the HEAD
existence probe with the client-synthesized 409 Conflict error; no PUT
request is transmitted, so the body is never sent. -/
theorem c3_overwrite_false_conflict (c : WebDAVClient) (srv : Server)
    (p : String) (dataLen streamLen : Nat)
    (hex : (existsOp c srv p).2 = true) :
    putFileContents c srv p dataLen false
        = ([headRequest p],
          .error ⟨"Файл " ++ p ++ " уже существует", some 409, some "Conflict"⟩) ∧
    putFileStream c srv p streamLen false
        = ([headRequest p],
          .error ⟨"Файл " ++ p ++ " уже существует", some 409, some "Conflict"⟩) ∧
    (∀ r ∈ (putFileContents c srv p dataLen false).1, r.method ≠ "PUT") ∧
    (∀ r ∈ (putFileStream c srv p streamLen false).1, r.method ≠ "PUT") := by
  have hfull : existsOp c srv p = ([headRequest p], true) := by
    rw [existsOp_eq]
    rw [existsOp_eq] at hex
    simp only at hex
    rw [hex]
  have h1 : putFileContents c srv p dataLen false
      = ([headRequest p],
        .error ⟨"Файл " ++ p ++ " уже существует", some 409, some "Conflict"⟩) := by
    simp [putFileContents, hfull]
  have h2 : putFileStream c srv p streamLen false
      = ([headRequest p],
        .error ⟨"Файл " ++ p ++ " уже существует", some 409, some "Conflict"⟩) := by
    simp [putFileStream, hfull]
  refine ⟨h1, h2, ?_, ?_⟩
  · rw [h1]
    intro r hr
    simp at hr
    rw [hr]
    simp [headRequest]
  · rw [h2]
    intro r hr
    simp at hr
    rw [hr]
    simp [headRequest]


/-- A concrete client over a well-formed base URL with the default 500MB
body limits, used by the concrete witnesses below. -/
def dc : WebDAVClient := createClient "https://example.com/dav/"

/-- A server answering 200 OK to everything. -/
def srvAll200 : Server := fun _ => .reply 200 "OK" (.obj [])

theorem c3_witness :
    (existsOp dc srvAll200 "/f.txt").2 = true ∧
    putFileContents dc srvAll200 "/f.txt" 5 false
      = ([headRequest "/f.txt"],
        .error ⟨"Файл /f.txt уже существует", some 409, some "Conflict"⟩) :=
  ⟨rfl, (c3_overwrite_false_conflict dc srvAll200 "/f.txt" 5 7 rfl).1⟩


/-- A normalized record whose content-length property does not parse as a
number. -/
def badSizeRecord : WebDAVResponse :=
  ⟨"/f.txt", ⟨some (.str "abc"), none, none, none, none, none⟩,
    .str "HTTP/1.1 200 OK"⟩

/-- C4 counterexample: on a record whose content-length is the non-numeric
string "abc", the mapped size is `parseInt`'s NaN (modelled `none`), not
the integer 0 the claim requires for a parse failure. -/
theorem c4_counterexample :
    (webdavResponseToFileInfo "2024-01-01T00:00:00.000Z" badSizeRecord).size
        = none ∧
    (none : Option Int) ≠ some 0 :=
  ⟨rfl, by decide⟩

/-- C4 amended: the mapped size is exactly `parseInt(contentlength || 0,
10)`: the property's integer value when it parses (negative values pass
through), 0 when the property is absent, and NaN — not 0 — when the
present value fails to parse as a number. -/
theorem c4_size_characterization (now : String) (r : WebDAVResponse) :
    (webdavResponseToFileInfo now r).size
        = jsParseInt (jsToString (jsOrDefault r.prop.getcontentlength (.str "0"))) ∧
    (r.prop.getcontentlength = none →
      (webdavResponseToFileInfo now r).size = some 0) ∧
    (∀ s : String, r.prop.getcontentlength = some (.str s) →
      s.isEmpty = false →
      (webdavResponseToFileInfo now r).size = jsParseInt s) := by
  refine ⟨rfl, ?_, ?_⟩
  · intro h
    simp [webdavResponseToFileInfo, h, jsOrDefault, jsToString]
    rfl
  · intro s h hs
    simp [webdavResponseToFileInfo, h, jsOrDefault, jsTruthy, hs, jsToString]

theorem c4_witness :
    badSizeRecord.prop.getcontentlength = some (.str "abc") ∧
    (webdavResponseToFileInfo "2024-01-01T00:00:00.000Z" badSizeRecord).size
      = jsParseInt "abc" :=
  ⟨rfl, (c4_size_characterization "2024-01-01T00:00:00.000Z"
    badSizeRecord).2.2 "abc" rfl rfl⟩


lemma mem_filterDirectoryEntries (dirPath normalizedPath now : String)
    (rs : List WebDAVResponse) (fi : FileInfo) :
    fi ∈ filterDirectoryEntries dirPath normalizedPath now rs ↔
      ∃ r ∈ rs, ¬ isSelfHref dirPath normalizedPath r.href ∧
        fi = webdavResponseToFileInfo now r := by
  induction rs with
  | nil => simp [filterDirectoryEntries]
  | cons hd tl ih =>
    by_cases h : isSelfHref dirPath normalizedPath hd.href <;>
      simp [filterDirectoryEntries, h, ih]

/-- C5: whenever the PROPFIND reply parses to records `rs`,
`getDirectoryContents` succeeds with a list that never contains an entry
whose path equals the queried directory under any of the compared forms
(normalized, original, and without the trailing separator), while the
image of every non-self record is included. -/
theorem c5_self_entry_excluded (c : WebDAVClient) (srv : Server)
    (dirPath now : String) (deep : Bool) (st : Nat) (stext : String)
    (body : JVal) (rs : List WebDAVResponse)
    (hlen : propfindXML.length ≤ c.maxBodyLength)
    (hsrv : srv (propfindRequest (normalizeDirPath dirPath)
      (if deep then "infinity" else "1")) = .reply st stext body)
    (hst : 200 ≤ st ∧ st < 300)
    (hparse : parseWebDAVResponse body = .ok rs) :
    ∃ fis, (getDirectoryContents c srv dirPath deep now).2 = .ok fis ∧
      (∀ fi ∈ fis,
        fi.filename ≠ normalizeDirPath dirPath ∧
        fi.filename ≠ dirPath ∧
        fi.filename ≠ (normalizeDirPath dirPath).dropRight 1 ∧
        fi.filename ++ "/" ≠ normalizeDirPath dirPath) ∧
      (∀ r ∈ rs, ¬ isSelfHref dirPath (normalizeDirPath dirPath) r.href →
        webdavResponseToFileInfo now r ∈ fis) := by
  have hrun : runAxios (some c.maxBodyLength) srv
      (propfindRequest (normalizeDirPath dirPath)
        (if deep then "infinity" else "1"))
      = ([propfindRequest (normalizeDirPath dirPath)
          (if deep then "infinity" else "1")], .success st body) := by
    unfold runAxios
    simp only [propfindRequest] at hsrv ⊢
    rw [hsrv]
    simp [hst, Nat.not_lt.mpr hlen]
  refine ⟨filterDirectoryEntries dirPath (normalizeDirPath dirPath) now rs,
    ?_, ?_, ?_⟩
  · simp only [getDirectoryContents]
    rw [hrun]
    simp [hparse]
  · intro fi hfi
    rw [mem_filterDirectoryEntries] at hfi
    obtain ⟨r, _, hns, rfl⟩ := hfi
    have : (webdavResponseToFileInfo now r).filename = r.href := rfl
    rw [this]
    unfold isSelfHref at hns
    push_neg at hns
    exact ⟨hns.1, hns.2.1, hns.2.2.1, hns.2.2.2⟩
  · intro r hr hns
    rw [mem_filterDirectoryEntries]
    exact ⟨r, hr, hns, rfl⟩


/-- Skeletons for the C5 witness listing of `/photos`: the collection's own
entry plus one sub-collection and one file. -/
def skPhotosSelf : RespSkel :=
  ⟨"/photos/", "HTTP/1.1 200 OK", none, some "M1", none, none, some true, none⟩

def skPhotos2024 : RespSkel :=
  ⟨"/photos/2024/", "HTTP/1.1 200 OK", none, some "M2", none, none, some true, none⟩

def skPhotosJpg : RespSkel :=
  ⟨"/photos/2024/a.jpg", "HTTP/1.1 200 OK", some "123", some "M3",
    some "image/jpeg", none, some false, none⟩

/-- The parsed PROPFIND reply body of the C5 witness. -/
def bodyC5 : JVal :=
  mkMultistatus .d .d
    [(pfAlld, skPhotosSelf), (pfAlld, skPhotos2024), (pfAlld, skPhotosJpg)]

/-- A server answering every request with the C5 multistatus body. -/
def srvC5 : Server := fun _ => .reply 207 "Multi-Status" bodyC5

/-- The records that reply parses to. -/
def recsC5 : List WebDAVResponse :=
  [normRecord .d skPhotosSelf, normRecord .d skPhotos2024,
    normRecord .d skPhotosJpg]

theorem c5_witness :
    parseWebDAVResponse bodyC5 = .ok recsC5 ∧
    (∃ fis, (getDirectoryContents dc srvC5 "/photos" true "N").2 = .ok fis ∧
      (∀ fi ∈ fis,
        fi.filename ≠ normalizeDirPath "/photos" ∧
        fi.filename ≠ "/photos" ∧
        fi.filename ≠ (normalizeDirPath "/photos").dropRight 1 ∧
        fi.filename ++ "/" ≠ normalizeDirPath "/photos") ∧
      (∀ r ∈ recsC5, ¬ isSelfHref "/photos" (normalizeDirPath "/photos") r.href →
        webdavResponseToFileInfo "N" r ∈ fis)) :=
  ⟨parse_mkMultistatus .d .d
      [(pfAlld, skPhotosSelf), (pfAlld, skPhotos2024), (pfAlld, skPhotosJpg)]
      (by decide),
    c5_self_entry_excluded dc srvC5 "/photos" "N" true 207 "Multi-Status"
      bodyC5 recsC5 (by decide) rfl (by decide)
      (parse_mkMultistatus .d .d
        [(pfAlld, skPhotosSelf), (pfAlld, skPhotos2024), (pfAlld, skPhotosJpg)]
        (by decide))⟩


/-- A property-status block built from a status line and a prop value,
under the bare spelling. -/
def mkPropstatBlock (b : String × JVal) : JVal :=
  .obj [("prop", b.2), ("status", .str b.1)]

/-- The source's selection predicate, at the level of a (status, prop)
pair: the status is truthy and contains "200". -/
def blockHas200 (b : String × JVal) : Bool :=
  jsTruthy (.str b.1) && jsIncludes b.1 "200"

/-- The block the source selects: first block whose status contains "200",
else the first block. -/
def selectedBlock (bs : List (String × JVal)) : String × JVal :=
  (bs.find? blockHas200).getD (bs.headD ("", .obj []))

lemma statusHas200_mkBlock (b : String × JVal) :
    statusHas200 (mkPropstatBlock b) = .ok (blockHas200 b) := by
  unfold statusHas200
  rw [show getField (mkPropstatBlock b) (dKeys "status") = some (.str b.1)
    from rfl]
  by_cases h : jsTruthy (.str b.1) <;> simp [h, blockHas200]

lemma findSuccess_blocks (bs : List (String × JVal)) :
    findSuccess ((bs.map mkPropstatBlock).map some)
      = .ok ((bs.find? blockHas200).map mkPropstatBlock) := by
  induction bs with
  | nil => rfl
  | cons b tl ih =>
    simp only [List.map_cons, findSuccess, statusHas200_mkBlock b]
    cases h : blockHas200 b with
    | true => simp [List.find?_cons_of_pos, h]
    | false =>
      simp only [List.map_map] at ih
      simp [List.find?_cons_of_neg, h, ih]

lemma selectPropstat_blocks (bs : List (String × JVal)) (hne : bs ≠ []) :
    selectPropstat ((bs.map mkPropstatBlock).map some)
      = .ok (some (mkPropstatBlock (selectedBlock bs))) := by
  unfold selectPropstat
  rw [findSuccess_blocks]
  cases hf : bs.find? blockHas200 with
  | some b => simp [selectedBlock, hf, mkPropstatBlock, jsTruthy]
  | none =>
    cases bs with
    | nil => exact absurd rfl hne
    | cons b0 tl => simp [selectedBlock, hf]

/-- C6: a record carrying several property-status blocks normalizes using
exactly the block selected by the partial-success rule: the first block
whose status line contains "200", or the first block when none does; the
extracted properties and the reported status both come from that block. -/
theorem c6_propstat_selection (href : String) (bs : List (String × JVal))
    (hne : bs ≠ []) (hdec : (decodeURIComponent href).isSome = true) :
    normalizeWebDAVResponse (.obj [("href", .str href),
        ("propstat", .arr (bs.map mkPropstatBlock))])
      = .ok { href := (decodeURIComponent href).getD ""
            , prop := extractProps
                (jsOrDefault (some (selectedBlock bs).2) (.obj []))
            , status := jsOrDefault (some (.str (selectedBlock bs).1))
                (.str "HTTP/1.1 200 OK") } := by
  obtain ⟨hc, hhc⟩ : ∃ c, decodeURIComponent href = some c :=
    Option.isSome_iff_exists.mp hdec
  simp only [normalizeWebDAVResponse]
  rw [show getField (JVal.obj [("href", .str href),
      ("propstat", .arr (bs.map mkPropstatBlock))]) (dKeys "href")
    = some (.str href) from rfl]
  rw [show getField (JVal.obj [("href", .str href),
      ("propstat", .arr (bs.map mkPropstatBlock))]) (dKeys "propstat")
    = some (.arr (bs.map mkPropstatBlock)) from rfl]
  rw [show toPropstatArray (some (.arr (bs.map mkPropstatBlock)))
    = (bs.map mkPropstatBlock).map some from rfl]
  rw [selectPropstat_blocks bs hne]
  dsimp only
  rw [show getField (mkPropstatBlock (selectedBlock bs)) (dKeys "prop")
    = some (selectedBlock bs).2 from rfl]
  rw [show getField (mkPropstatBlock (selectedBlock bs)) (dKeys "status")
    = some (.str (selectedBlock bs).1) from rfl]
  rw [jsOrDefault_str_empty]
  rw [show jsToString (.str href) = href from rfl]
  rw [hhc]
  simp [hhc]

theorem c6_witness :
    normalizeWebDAVResponse (.obj [("href", .str "/x.txt"),
        ("propstat", .arr ([("HTTP/1.1 404 Not Found", JVal.obj []),
            ("HTTP/1.1 200 OK",
              JVal.obj [("getcontentlength", JVal.str "7")])].map
          mkPropstatBlock))])
      = .ok { href := (decodeURIComponent "/x.txt").getD ""
            , prop := extractProps (jsOrDefault
                (some (selectedBlock [("HTTP/1.1 404 Not Found", JVal.obj []),
                  ("HTTP/1.1 200 OK",
                    JVal.obj [("getcontentlength", JVal.str "7")])]).2)
                (.obj []))
            , status := jsOrDefault (some (.str (selectedBlock
                [("HTTP/1.1 404 Not Found", JVal.obj []),
                  ("HTTP/1.1 200 OK",
                    JVal.obj [("getcontentlength", JVal.str "7")])]).1))
                (.str "HTTP/1.1 200 OK") } :=
  c6_propstat_selection "/x.txt"
    [("HTTP/1.1 404 Not Found", JVal.obj []),
      ("HTTP/1.1 200 OK", JVal.obj [("getcontentlength", JVal.str "7")])]
    (List.cons_ne_nil _ _) (by decide)


/-- C7 counterexample input: a multistatus tree whose response field is an
empty array, so parsing yields zero records. -/
def bodyEmptyMultistatus : JVal :=
  .obj [("multistatus", .obj [("response", .arr [])])]

/-- A server answering every request with the empty multistatus body. -/
def srvEmptyMultistatus : Server :=
  fun _ => .reply 207 "Multi-Status" bodyEmptyMultistatus

/-- C7 counterexample: on a reply parsing to zero records, `stat` fails
with a `WebDAVError` carrying HTTP status 404 "Not Found" — an error the
classification maps to not-found — whereas the parse errors of this client
carry no status code at all, so the failure is not a parse error. -/
theorem c7_counterexample :
    parseWebDAVResponse bodyEmptyMultistatus = .ok [] ∧
    (stat dc srvEmptyMultistatus "/x.txt" "N").2
      = .error ⟨"Не удалось получить информацию о ресурсе", some 404,
          some "Not Found"⟩ ∧
    (⟨"Не удалось получить информацию о ресурсе", some 404,
      some "Not Found"⟩ : WebDAVError).statusCode ≠ none :=
  ⟨rfl, rfl, by decide⟩

/-- C7 amended: `stat` maps the first parsed record to `FileInfo`; when
the reply parses to zero records it fails with a `WebDAVError` carrying
status 404 "Not Found" (a not-found-classified error, not a parse
error). -/
theorem c7_stat_first_record (c : WebDAVClient) (srv : Server)
    (p now : String) (st : Nat) (stext : String) (body : JVal)
    (hlen : propfindXML.length ≤ c.maxBodyLength)
    (hsrv : srv (propfindRequest p "0") = .reply st stext body)
    (hst : 200 ≤ st ∧ st < 300) :
    (∀ r rest, parseWebDAVResponse body = .ok (r :: rest) →
      (stat c srv p now).2 = .ok (webdavResponseToFileInfo now r)) ∧
    (parseWebDAVResponse body = .ok [] →
      (stat c srv p now).2
        = .error ⟨"Не удалось получить информацию о ресурсе", some 404,
            some "Not Found"⟩) := by
  have hrun : runAxios (some c.maxBodyLength) srv (propfindRequest p "0")
      = ([propfindRequest p "0"], .success st body) := by
    unfold runAxios
    simp only [propfindRequest] at hsrv ⊢
    rw [hsrv]
    simp [hst, Nat.not_lt.mpr hlen]
  constructor
  · intro r rest hparse
    simp only [stat]
    rw [hrun]
    simp [hparse]
  · intro hparse
    simp only [stat]
    rw [hrun]
    simp [hparse]

/-- Skeleton of the single record used by the C7 witness. -/
def skReport : RespSkel :=
  ⟨"/docs/report.pdf", "HTTP/1.1 200 OK", some "10240", some "M",
    some "application/pdf", none, some false, none⟩

/-- The parsed PROPFIND reply of the C7 witness. -/
def bodyC7 : JVal := mkMultistatus .d .d [(pfAlld, skReport)]

/-- A server answering with the single-record multistatus body. -/
def srvC7 : Server := fun _ => .reply 207 "Multi-Status" bodyC7

theorem c7_witness :
    parseWebDAVResponse bodyC7 = .ok [normRecord .d skReport] ∧
    (stat dc srvC7 "/docs/report.pdf" "N").2
      = .ok (webdavResponseToFileInfo "N" (normRecord .d skReport)) :=
  ⟨parse_mkMultistatus .d .d [(pfAlld, skReport)] (by decide),
    (c7_stat_first_record dc srvC7 "/docs/report.pdf" "N" 207 "Multi-Status"
      bodyC7 (by decide) rfl (by decide)).1 (normRecord .d skReport) []
      (parse_mkMultistatus .d .d [(pfAlld, skReport)] (by decide))⟩


lemma parseHostPath_scheme (scheme rest : String) (b : ParsedBase)
    (h : parseHostPath scheme rest = some b) : b.scheme = scheme := by
  unfold parseHostPath at h
  split at h
  · exact absurd h (by simp)
  · split at h
    · exact absurd h (by simp)
    · rw [Option.some_inj] at h
      rw [← h]

lemma parseHttpBase_scheme (base : String) (b : ParsedBase)
    (h : parseHttpBase base = some b) :
    b.scheme = "http" ∨ b.scheme = "https" := by
  unfold parseHttpBase at h
  by_cases hA : jsStartsWith base "https://" = true
  · rw [if_pos hA] at h
    exact Or.inr (parseHostPath_scheme _ _ _ h)
  · rw [if_neg hA] at h
    by_cases hB : jsStartsWith base "http://" = true
    · rw [if_pos hB] at h
      exact Or.inl (parseHostPath_scheme _ _ _ h)
    · rw [if_neg hB] at h
      exact absurd h (by simp)

/-- What `newURL` returns when the base parses and the reference carries
no scheme at all: some URL extending `scheme://`, strictly longer than the
reference. -/
lemma newURL_spec (p base : String) (b : ParsedBase)
    (hbase : parseHttpBase base = some b)
    (h1 : jsStartsWith p "http://" = false)
    (h2 : jsStartsWith p "https://" = false)
    (h3 : hasScheme p = false) :
    ∃ u, newURL p base = some u ∧
      (b.scheme.toList ++ String.toList "://") <+: u.toList ∧
      p.length < u.length := by
  have d1 : String.toList "://" = [':', '/', '/'] := rfl
  have d2 : String.toList ":" = [':'] := rfl
  have l3 : ("://" : String).length = 3 := rfl
  have l1 : (":" : String).length = 1 := rfl
  unfold newURL
  rw [hbase]
  rw [h1, h2, h3]
  simp only [Bool.or_self, Bool.false_eq_true, if_false]
  split
  · -- protocol-relative reference starting with two separators
    rename_i t heq
    refine ⟨_, rfl, ⟨t, ?_⟩, ?_⟩
    · simp [String.toList, String.data_append, d1, d2,
        show p.data = '/' :: '/' :: t from heq]
    · simp [String.length_append, l1]
  · -- absolute-path reference
    refine ⟨_, rfl, ⟨b.host.toList ++ p.toList, ?_⟩, ?_⟩
    · simp [String.toList, String.data_append]
    · simp [String.length_append, l3]
  · -- empty reference
    rename_i heq
    have hp0 : p.length = 0 := by
      rw [show p.length = p.data.length from rfl, show p.data = [] from heq]
      rfl
    refine ⟨_, rfl, ⟨b.host.toList ++ b.path.toList, ?_⟩, ?_⟩
    · simp [String.toList, String.data_append]
    · simp [String.length_append, l3, hp0]
  · -- plain relative reference
    refine ⟨_, rfl, ⟨b.host.toList ++ (dirPart b.path).toList ++ p.toList, ?_⟩, ?_⟩
    · simp [String.toList, String.data_append]
    · simp [String.length_append, l3]


lemma jsStartsWith_spec (s pre : String) (h : jsStartsWith s pre = true) :
    pre.toList <+: s.toList :=
  List.isPrefixOf_iff_prefix.mp (by simpa [jsStartsWith] using h)

/-- Under a well-formed base URL, `createAbsoluteUrl` of a scheme-less
destination always yields a fully qualified http(s) URL. -/
lemma createAbsoluteUrl_absolute (c : WebDAVClient) (b : ParsedBase)
    (hbase : parseHttpBase c.baseURL = some b) (dst : String)
    (hsch : hasScheme dst = false) :
    "http://".toList <+: (createAbsoluteUrl c dst).toList ∨
      "https://".toList <+: (createAbsoluteUrl c dst).toList := by
  unfold createAbsoluteUrl
  by_cases hA : jsStartsWith dst "http://" = true
  · rw [if_pos (by simp [hA])]
    exact Or.inl (jsStartsWith_spec dst "http://" hA)
  · by_cases hB : jsStartsWith dst "https://" = true
    · rw [if_pos (by simp [hB])]
      exact Or.inr (jsStartsWith_spec dst "https://" hB)
    · rw [if_neg (by simp [hA, hB])]
      obtain ⟨u, hu, hpre, _⟩ := newURL_spec dst c.baseURL b hbase
        (by simpa using hA) (by simpa using hB) hsch
      rw [hu]
      dsimp only
      rcases parseHttpBase_scheme _ _ hbase with hs | hs
      · left
        have hlit : String.toList "http://" = b.scheme.toList ++ String.toList "://" := by
          rw [hs]
          rfl
        rw [hlit]
        exact hpre
      · right
        have hlit : String.toList "https://" = b.scheme.toList ++ String.toList "://" := by
          rw [hs]
          rfl
        rw [hlit]
        exact hpre

/-- Under a well-formed base URL, a scheme-less destination never survives
as the literal Destination value. -/
lemma createAbsoluteUrl_ne (c : WebDAVClient) (b : ParsedBase)
    (hbase : parseHttpBase c.baseURL = some b) (dst : String)
    (h1 : jsStartsWith dst "http://" = false)
    (h2 : jsStartsWith dst "https://" = false)
    (hsch : hasScheme dst = false) :
    createAbsoluteUrl c dst ≠ dst := by
  unfold createAbsoluteUrl
  rw [if_neg (by simp [h1, h2])]
  obtain ⟨u, hu, _, hlen⟩ := newURL_spec dst c.baseURL b hbase h1 h2 hsch
  rw [hu]
  dsimp only
  intro he
  rw [he] at hlen
  omega

/-- C8 counterexample: for the destination "report:v2.txt" — a path that
merely contains a colon, hence a scheme-bearing reference for the URL
constructor — the MOVE's Destination header is the literal input string
itself: neither an http(s) URL nor a resolution against the base, because
`new URL` treats any scheme-bearing reference as absolute and ignores the
base. -/
theorem c8_counterexample :
    hasScheme "report:v2.txt" = true ∧
    jsStartsWith "report:v2.txt" "http://" = false ∧
    jsStartsWith "report:v2.txt" "https://" = false ∧
    createAbsoluteUrl dc "report:v2.txt" = "report:v2.txt" ∧
    (moveFile dc srvAll200 "/a.txt" "report:v2.txt" (some false)).1
      = [⟨"MOVE", "/a.txt",
          [("Destination", "report:v2.txt"), ("Overwrite", "F")], 0⟩] :=
  ⟨by decide, by decide, by decide, by decide, rfl⟩

/-- C8 amended: every MOVE and COPY transmits exactly one request whose
`Destination` header holds `createAbsoluteUrl` of the destination and
whose `Overwrite` header is "T" or "F" according to the flag; for every
destination that carries no URL scheme, the header is a fully qualified
http(s) URL resolved against the (well-formed) base and never the literal
destination string, while a scheme-bearing destination passes through the
URL constructor unresolved. -/
theorem c8_destination_absolute (c : WebDAVClient) (srv : Server)
    (src dst : String) (ov : Bool) (b : ParsedBase)
    (hbase : parseHttpBase c.baseURL = some b)
    (hsch : hasScheme dst = false) :
    (moveFile c srv src dst (some ov)).1
        = [⟨"MOVE", src,
            [("Destination", createAbsoluteUrl c dst),
              ("Overwrite", if ov then "T" else "F")], 0⟩] ∧
    (copyFile c srv src dst (some ov)).1
        = [⟨"COPY", src,
            [("Destination", createAbsoluteUrl c dst),
              ("Overwrite", if ov then "T" else "F")], 0⟩] ∧
    ("http://".toList <+: (createAbsoluteUrl c dst).toList ∨
      "https://".toList <+: (createAbsoluteUrl c dst).toList) ∧
    (jsStartsWith dst "http://" = false → jsStartsWith dst "https://" = false →
      createAbsoluteUrl c dst ≠ dst) := by
  refine ⟨?_, ?_, createAbsoluteUrl_absolute c b hbase dst hsch,
    fun h1 h2 => createAbsoluteUrl_ne c b hbase dst h1 h2 hsch⟩ <;>
    simp [moveFile, copyFile, moveHeaders, runAxios]

theorem c8_witness :
    parseHttpBase dc.baseURL = some ⟨"https", "example.com", "/dav/"⟩ ∧
    hasScheme "relative/target" = false ∧
    createAbsoluteUrl dc "relative/target"
      = "https://example.com/dav/relative/target" ∧
    (moveFile dc srvAll200 "/a.txt" "relative/target" (some false)).1
      = [⟨"MOVE", "/a.txt",
          [("Destination", createAbsoluteUrl dc "relative/target"),
            ("Overwrite", "F")], 0⟩] ∧
    createAbsoluteUrl dc "relative/target" ≠ "relative/target" :=
  ⟨by decide, by decide, by decide,
    (c8_destination_absolute dc srvAll200 "/a.txt" "relative/target" false
      ⟨"https", "example.com", "/dav/"⟩ (by decide) (by decide)).1,
    (c8_destination_absolute dc srvAll200 "/a.txt" "relative/target" false
      ⟨"https", "example.com", "/dav/"⟩ (by decide) (by decide)).2.2.2
      (by decide) (by decide)⟩


/-- A server on which both source and destination exist (HEAD answers 200)
and MOVE is refused with 412, as a WebDAV server does for `Overwrite: F`
onto an existing target. -/
def srvC9 : Server := fun r =>
  if r.method = "HEAD" then .reply 200 "OK" (.obj [])
  else if r.method = "MOVE" then .reply 412 "Precondition Failed" (.obj [])
  else .reply 207 "Multi-Status" (.obj [])

/-- C9 counterexample: with the destination existing on the server and
overwrite false, the client's `moveFile` does issue a MOVE request (its
trace is exactly one MOVE), and the resulting error is the server's 412,
not a client-side 409 ConflictError — refuting both halves of the claim at
this input. -/
theorem c9_counterexample :
    ((moveFile dc srvC9 "/a.txt" "/b.txt" (some false)).1.map
        (fun r => r.method)) = ["MOVE"] ∧
    (existsOp dc srvC9 "/b.txt").2 = true ∧
    (moveFile dc srvC9 "/a.txt" "/b.txt" (some false)).2
      = .error ⟨"Не удалось переместить файл: Предусловие не выполнено.",
          some 412, some "Precondition Failed"⟩ :=
  ⟨rfl, rfl, rfl⟩

/-- C9 amended: the pre-MOVE existence check lives in the node's MOVE
operation, not in the client: when the destination exists and overwrite is
false, the node branch stops after the two HEAD probes with a
NodeOperationError (no 409 status), and no MOVE request is issued. -/
theorem c9_node_move_conflict (c : WebDAVClient) (srv : Server)
    (filePath targetPath now : String) (createParentFolders : Bool)
    (hsrc : (existsOp c srv filePath).2 = true)
    (htgt : (existsOp c srv targetPath).2 = true) :
    nodeMoveBranch c srv filePath targetPath false createParentFolders now
        = ([headRequest filePath, headRequest targetPath],
          .error (.opError ("Целевой файл " ++ targetPath ++
            " уже существует. Установите флаг \"Перезаписать\" для перезаписи."))) ∧
    ∀ r ∈ (nodeMoveBranch c srv filePath targetPath false
        createParentFolders now).1, r.method ≠ "MOVE" := by
  have hfull1 : existsOp c srv filePath = ([headRequest filePath], true) := by
    rw [existsOp_eq]
    rw [existsOp_eq] at hsrc
    simp only at hsrc
    rw [hsrc]
  have hfull2 : existsOp c srv targetPath = ([headRequest targetPath], true) := by
    rw [existsOp_eq]
    rw [existsOp_eq] at htgt
    simp only at htgt
    rw [htgt]
  have h1 : nodeMoveBranch c srv filePath targetPath false
      createParentFolders now
      = ([headRequest filePath, headRequest targetPath],
        .error (.opError ("Целевой файл " ++ targetPath ++
          " уже существует. Установите флаг \"Перезаписать\" для перезаписи."))) := by
    simp [nodeMoveBranch, hfull1, hfull2]
  refine ⟨h1, ?_⟩
  rw [h1]
  intro r hr
  simp only [List.mem_cons, List.mem_singleton, List.not_mem_nil,
    or_false] at hr
  rcases hr with rfl | rfl <;> simp [headRequest]

theorem c9_witness :
    (existsOp dc srvAll200 "/b.txt").2 = true ∧
    nodeMoveBranch dc srvAll200 "/a.txt" "/b.txt" false true "N"
      = ([headRequest "/a.txt", headRequest "/b.txt"],
        .error (.opError ("Целевой файл /b.txt уже существует. " ++
          "Установите флаг \"Перезаписать\" для перезаписи."))) :=
  ⟨rfl, (c9_node_move_conflict dc srvAll200 "/a.txt" "/b.txt" "N" true
    rfl rfl).1⟩


/-- C10 counterexample: with the default 500MB configured maximum, a
600MB `putFileStream` upload is transmitted (the PUT appears in the trace
and succeeds) instead of failing locally: the stream path overrides both
maxima to Infinity. -/
theorem c10_counterexample :
    dc.maxBodyLength = 524288000 ∧
    dc.maxBodyLength < 600000000 ∧
    ((putFileStream dc srvAll200 "/big.bin" 600000000 true).1.map
        (fun r => r.method)) = ["PUT"] ∧
    (putFileStream dc srvAll200 "/big.bin" 600000000 true).2 = .ok () :=
  ⟨rfl, by decide, rfl, rfl⟩

/-- C10 amended: `putFileContents` (a buffered body) enforces the
configured `maxBodyLength` — an over-long body fails locally with an
errored result and the PUT is never transmitted — while `putFileStream`
overrides the maxima to Infinity, so its PUT is always transmitted
regardless of the configured maximum. -/
theorem c10_body_limit (c : WebDAVClient) (srv : Server) (p : String)
    (n : Nat) (hover : c.maxBodyLength < n) :
    putFileContents c srv p n true
        = ([], .error ⟨"Не удалось загрузить содержимое файла: " ++
            "Request body larger than maxBodyLength limit", none, none⟩) ∧
    (∀ r ∈ (putFileContents c srv p n true).1, r.method ≠ "PUT") ∧
    (putFileStream c srv p n true).1 = [putRequest p n] := by
  have h1 : putFileContents c srv p n true
      = ([], .error ⟨"Не удалось загрузить содержимое файла: " ++
          "Request body larger than maxBodyLength limit", none, none⟩) := by
    simp [putFileContents, runAxios, putRequest, handleError, hover]
  refine ⟨h1, ?_, ?_⟩
  · rw [h1]
    intro r hr
    simp at hr
  · simp [putFileStream, runAxios]

theorem c10_witness :
    dc.maxBodyLength < 600000000 ∧
    putFileContents dc srvAll200 "/big.bin" 600000000 true
      = ([], .error ⟨"Не удалось загрузить содержимое файла: " ++
          "Request body larger than maxBodyLength limit", none, none⟩) :=
  ⟨by decide,
    (c10_body_limit dc srvAll200 "/big.bin" 600000000 (by decide)).1⟩

end WebDavModel
